import Mathlib

/-!
Verification of the tenant-scoped RBAC / permission-resolution core of the
photocat repository (`src/zoltag/auth/dependencies.py` and
`src/photocat/auth/jwt.py`), as a shallow embedding: Python sets become
`Finset String`, database tables become lists of rows, the module-level
caches become explicit state threaded through the functions, and raised
`HTTPException`s become an error result type.
-/

namespace Photocat

/-! ## ASCII string primitives

Python's `str.strip` / `str.lower` restricted to ASCII, which covers every
permission key, role key and email the core manipulates.  These are defined
structurally over `String.data` so that concrete instances reduce inside
`decide`. -/

def isAsciiSpace (c : Char) : Bool :=
  c = ' ' || c = '\t' || c = '\n' || c = '\r'

def asciiLowerChar (c : Char) : Char :=
  if 'A' ≤ c && c ≤ 'Z' then Char.ofNat (c.toNat + 32) else c

/-- Model of Python `str.lower()` (ASCII range). -/
def pyLower (s : String) : String :=
  String.mk (s.data.map asciiLowerChar)

/-- Model of Python `str.strip()` (ASCII whitespace). -/
def pyStrip (s : String) : String :=
  String.mk (((s.data.dropWhile isAsciiSpace).reverse.dropWhile isAsciiSpace).reverse)

/-- Python `x or y` on an optional string: `None` and `""` are falsy. -/
def pyOrStr (a : Option String) (b : String) : String :=
  match a with
  | none => b
  | some s => if s = "" then b else s

/-! ## Permission-implication table and alias expansion

Embedding of `PERMISSION_IMPLICATIONS` and `_expand_permissions`
(`dependencies.py` lines 31-37 and 93-105).  The `while changed` loop is
modelled as fuelled iteration of one pass (`expandStep`); one pass adds, for
every key currently present, each implied key that is neither denied nor
already present — exactly what one iteration of the Python `while` body does
to the set (keys added mid-pass are in `expanded` but not in the `list(...)`
snapshot, so their implications are only consulted on the next pass). -/

def impliedOf (impl : List (String × List String)) (k : String) : List String :=
  match impl.find? (fun e => e.1 == k) with
  | some e => e.2
  | none => []

def expandStep (impl : List (String × List String)) (denied : Finset String)
    (e : Finset String) : Finset String :=
  e ∪ ((e.biUnion fun k => (impliedOf impl k).toFinset) \ denied)

def expandIter (impl : List (String × List String)) (denied : Finset String) :
    Nat → Finset String → Finset String
  | 0, e => e
  | Nat.succ n, e =>
    if expandStep impl denied e = e then e
    else expandIter impl denied n (expandStep impl denied e)

/-- All keys that appear on the right-hand side of the implication table. -/
def allImplied (impl : List (String × List String)) : Finset String :=
  impl.foldr (fun p acc => p.2.toFinset ∪ acc) ∅

/-- Enough passes for the fixed-point iteration to stabilise. -/
def expandFuel (impl : List (String × List String)) (allowed : Finset String) : Nat :=
  (allowed ∪ allImplied impl).card

/-- Embedding of `_expand_permissions`: run the fixed-point loop, then
subtract the denied set. -/
def expand_permissions (impl : List (String × List String))
    (allowed denied : Finset String) : Finset String :=
  expandIter impl denied (expandFuel impl allowed) allowed \ denied

/-- Embedding of the module-level `PERMISSION_IMPLICATIONS` table. -/
def PERMISSION_IMPLICATIONS : List (String × List String) :=
  [("assets.read", ["image.view"]),
   ("assets.write", ["image.rate", "image.tag", "image.note.edit", "image.variant.manage"]),
   ("image.view", ["assets.read"])]

/-! ### Stabilisation of the expansion loop -/

lemma subset_expandStep (impl : List (String × List String)) (denied e : Finset String) :
    e ⊆ expandStep impl denied e :=
  Finset.subset_union_left

lemma impliedOf_subset_allImplied (impl : List (String × List String)) (k : String) :
    (impliedOf impl k).toFinset ⊆ allImplied impl := by
  induction impl with
  | nil => simp [impliedOf]
  | cons hd tl ih =>
    simp only [impliedOf, List.find?, allImplied, List.foldr]
    by_cases h : hd.1 == k
    · simp [h, Finset.subset_union_left]
    · simp only [h]
      exact (ih.trans Finset.subset_union_right : _)

lemma expandStep_subset (impl : List (String × List String)) (denied : Finset String)
    {e U : Finset String} (heU : e ⊆ U) (hI : allImplied impl ⊆ U) :
    expandStep impl denied e ⊆ U := by
  refine Finset.union_subset heU ?_
  refine (Finset.sdiff_subset.trans ?_)
  refine Finset.biUnion_subset.2 ?_
  intro k _
  exact (impliedOf_subset_allImplied impl k).trans hI

lemma expandIter_fixed (impl : List (String × List String)) (denied : Finset String)
    {U : Finset String} (hI : allImplied impl ⊆ U) :
    ∀ (fuel : Nat) (e : Finset String), e ⊆ U → U.card ≤ fuel + e.card →
      expandStep impl denied (expandIter impl denied fuel e) =
        expandIter impl denied fuel e := by
  intro fuel
  induction fuel with
  | zero =>
    intro e heU hcard
    have heq : e = U := Finset.eq_of_subset_of_card_le heU (by simpa using hcard)
    subst heq
    have h1 : expandStep impl denied e ⊆ e := expandStep_subset impl denied (le_refl e) hI
    have h2 : e ⊆ expandStep impl denied e := subset_expandStep impl denied e
    simpa [expandIter] using Finset.Subset.antisymm h1 h2
  | succ n ih =>
    intro e heU hcard
    by_cases h : expandStep impl denied e = e
    · simp [expandIter, h]
    · have hsub : e ⊆ expandStep impl denied e := subset_expandStep impl denied e
      have hss : e ⊂ expandStep impl denied e :=
        Finset.ssubset_iff_subset_ne.2 ⟨hsub, fun hc => h hc.symm⟩
      have hlt : e.card < (expandStep impl denied e).card := Finset.card_lt_card hss
      have hsubU : expandStep impl denied e ⊆ U := expandStep_subset impl denied heU hI
      have hcard2 : U.card ≤ n + (expandStep impl denied e).card := by omega
      have := ih (expandStep impl denied e) hsubU hcard2
      simpa [expandIter, h] using this

/-- C7: for every finite allowed set, denied set and implication table
(cycles included), the fixed-point expansion loop of `_expand_permissions`
terminates: each pass only grows the set, and within `expandFuel` passes the
iteration reaches a set that a further pass leaves unchanged (the Python
`while changed` loop exits there). -/
theorem expand_permissions_terminates (impl : List (String × List String))
    (allowed denied : Finset String) :
    expandStep impl denied (expandIter impl denied (expandFuel impl allowed) allowed) =
        expandIter impl denied (expandFuel impl allowed) allowed ∧
      ∀ e : Finset String, e ⊆ expandStep impl denied e := by
  constructor
  · have hI : allImplied impl ⊆ allowed ∪ allImplied impl := Finset.subset_union_right
    exact expandIter_fixed impl denied hI (expandFuel impl allowed) allowed
      Finset.subset_union_left (by simp [expandFuel])
  · intro e
    exact subset_expandStep impl denied e

/-! ## Data model

Rows of the tables the core reads and writes (`zoltag/auth/models.py` usage
sites in `dependencies.py`).  Identifiers and timestamps are opaque strings
and naturals; optional columns are `Option`. -/

structure TenantRolePermission where
  role_id : String
  permission_key : String
  effect : String
deriving DecidableEq

structure TenantRole where
  id : String
  tenant_id : String
  role_key : String
  is_active : Bool
deriving DecidableEq

/-- A `Tenant` row; `prefix_key` models the tenant's key-prefix column. -/
structure TenantRow where
  id : String
  identifier : String
  prefix_key : String
deriving DecidableEq

structure UserTenant where
  supabase_uid : String
  tenant_id : String
  tenant_role_id : Option String
  role : String
  invited_by : Option String
  invited_at : Option Nat
  accepted_at : Option Nat
deriving DecidableEq

structure UserProfile where
  supabase_uid : String
  email : Option String
  is_active : Bool
  is_super_admin : Bool
deriving DecidableEq

structure Invitation where
  email : String
  tenant_id : String
  role : Option String
  invited_by : Option String
  created_at : Nat
  expires_at : Nat
  accepted_at : Option Nat
deriving DecidableEq

structure DB where
  tenants : List TenantRow
  tenant_roles : List TenantRole
  role_permissions : List TenantRolePermission
  memberships : List UserTenant
  invitations : List Invitation
deriving DecidableEq

/-! ## Permission loading (`_load_permissions_from_role_mapping`, lines 67-90) -/

/-- The `(permission_key, effect)` rows of the query: permission rows joined
against active roles of the given tenant with the given role id. -/
def roleRows (db : DB) (role_id tenant_id : String) : List (String × String) :=
  db.role_permissions.flatMap fun p =>
    db.tenant_roles.filterMap fun r =>
      if r.id == p.role_id && r.id == role_id &&
          r.tenant_id == tenant_id && r.is_active then
        some (p.permission_key, p.effect)
      else none

def allowedOf (rows : List (String × String)) : Finset String :=
  ((rows.filter fun pr => pr.2 == "allow").map fun pr => pr.1).toFinset

def deniedOf (rows : List (String × String)) : Finset String :=
  ((rows.filter fun pr => pr.2 == "deny").map fun pr => pr.1).toFinset

/-- Embedding of `_load_permissions_from_role_mapping`: join the role's
permission rows against active roles of the membership's tenant, partition
by effect, and expand.  `if not role_id` makes both a missing and an empty
role id yield the empty set. -/
def load_permissions_from_role_mapping (db : DB) (m : UserTenant) : Finset String :=
  match m.tenant_role_id with
  | none => ∅
  | some role_id =>
    if role_id = "" then ∅
    else
      let rows := roleRows db role_id m.tenant_id
      if rows = [] then ∅
      else expand_permissions PERMISSION_IMPLICATIONS (allowedOf rows) (deniedOf rows)

/-! ## Permission cache (`_tenant_permission_cache`, lines 24-64, 108-122)

The module-level dict is threaded explicitly: a list of
`((tenant, uid), (expiry, permissions))` entries with unique keys. -/

def RBAC_PERMISSION_CACHE_TTL_SECONDS : Nat := 30

abbrev Cache := List ((String × String) × Nat × Finset String)

/-- Predicate deciding whether `invalidate_tenant_permission_cache` removes
the key `k`: the key must match every filter that is provided. -/
def removeMatch (supabase_uid tenant_id : Option String) (k : String × String) : Bool :=
  (match supabase_uid with
   | none => true
   | some u => k.2 == u) &&
  (match tenant_id with
   | none => true
   | some t => k.1 == t)

/-- Embedding of `invalidate_tenant_permission_cache` (lines 44-64): with
neither filter the cache is cleared; otherwise exactly the matching keys are
popped. -/
def invalidate_tenant_permission_cache (supabase_uid tenant_id : Option String)
    (c : Cache) : Cache :=
  match supabase_uid, tenant_id with
  | none, none => []
  | _, _ => List.filter (fun e => !(removeMatch supabase_uid tenant_id e.1)) c

/-- Dict assignment `cache[key] = v`: replace the entry if the key is
present, append otherwise. -/
def cacheSet (c : Cache) (k : String × String) (v : Nat × Finset String) : Cache :=
  if (List.find? (fun e => e.1 == k) c).isSome then
    List.map (fun e => if e.1 == k then (k, v) else e) c
  else c ++ [(k, v)]

/-- Embedding of `get_effective_membership_permissions` (lines 108-122) at
the level of values: cache hit within TTL returns the cached set, otherwise
the permissions are recomputed and stored with a fresh expiry. -/
def get_effective_membership_permissions (db : DB) (m : UserTenant) (now : Nat)
    (cache : Cache) : Finset String × Cache :=
  let key := (m.tenant_id, m.supabase_uid)
  match (List.find? (fun e => e.1 == key) cache).map (fun e => e.2) with
  | some cached =>
    if now < cached.1 then (cached.2, cache)
    else
      let permissions := load_permissions_from_role_mapping db m
      (permissions, cacheSet cache key (now + RBAC_PERMISSION_CACHE_TTL_SECONDS, permissions))
  | none =>
    let permissions := load_permissions_from_role_mapping db m
    (permissions, cacheSet cache key (now + RBAC_PERMISSION_CACHE_TTL_SECONDS, permissions))

/-! ## Tenant resolution and guards (lines 144-151, 371-453) -/

/-- Modelled from the spec: `tenant_reference_filter` (module
`zoltag.tenant_scope`, whose source is not among the provided files) matches
a tenant row when the supplied reference equals the canonical id, the human
identifier, or the key-prefix of the tenant. -/
def tenant_reference_matches (t : TenantRow) (ref : String) : Bool :=
  t.id == ref || t.identifier == ref || t.prefix_key == ref

/-- Embedding of `_resolve_tenant_scope`: first tenant row matched by the
reference filter, or `none`. -/
def resolve_tenant_scope (db : DB) (ref : String) : Option String :=
  (db.tenants.find? (fun t => tenant_reference_matches t ref)).map (fun t => t.id)

/-- Modelled from the spec: `tenant_column_filter_for_values` (module
`zoltag.tenant_scope`, whose source is not among the provided files)
restricts membership rows to the resolved tenant scope value. -/
def tenant_column_matches (m : UserTenant) (scope : String) : Bool :=
  m.tenant_id == scope

/-- Result of a guard: the authenticated user, or a raised `HTTPException`
with its status code and detail string. -/
inductive AuthResult where
  | ok (u : UserProfile)
  | err (status : Nat) (detail : String)
deriving DecidableEq

/-- Membership predicate shared by both tenant guards: same user, tenant
scope filter, and `accepted_at IS NOT NULL`. -/
def membershipPred (user : UserProfile) (scope : String) (m : UserTenant) : Bool :=
  m.supabase_uid == user.supabase_uid && tenant_column_matches m scope &&
    m.accepted_at.isSome

/-- Embedding of the `check_access` dependency produced by
`require_tenant_access` (lines 371-415), after `get_current_user` has
authenticated the (active) user. -/
def require_tenant_access_check (db : DB) (user : UserProfile) (tenant_id : String) :
    AuthResult :=
  if user.is_super_admin then .ok user
  else
    let scope_tenant_id := pyOrStr (resolve_tenant_scope db tenant_id) tenant_id
    match db.memberships.find? (membershipPred user scope_tenant_id) with
    | some _ => .ok user
    | none => .err 403 ("No access to tenant " ++ tenant_id)

/-- Embedding of the `check_permission` dependency produced by
`require_tenant_permission_from_header` (lines 418-453); the factory strips
the configured permission key, and the check consults the permission cache. -/
def require_tenant_permission_check (permission_key : String) (db : DB)
    (user : UserProfile) (x_tenant_id : String) (now : Nat) (cache : Cache) :
    AuthResult × Cache :=
  let required_permission := pyStrip permission_key
  if user.is_super_admin then (.ok user, cache)
  else
    let scope_tenant_id := pyOrStr (resolve_tenant_scope db x_tenant_id) x_tenant_id
    match db.memberships.find? (membershipPred user scope_tenant_id) with
    | none => (.err 403 ("No access to tenant " ++ x_tenant_id), cache)
    | some m =>
      let r := get_effective_membership_permissions db m now cache
      if required_permission ∈ r.1 then (.ok user, r.2)
      else (.err 403 ("Permission required: " ++ required_permission), r.2)

/-! ## Invitation claiming (`claim_pending_invitations_for_user`, lines
154-214, and `get_tenant_role_id_by_key`, lines 125-141) -/

/-- Embedding of `get_tenant_role_id_by_key`: normalise the key with
`str(role_key or "").strip().lower()`, return `None` for a blank key,
otherwise the id of the first matching role row of the tenant. -/
def get_tenant_role_id_by_key (db : DB) (tenant_id : String) (role_key : Option String) :
    Option String :=
  let normalized_key := pyLower (pyStrip (role_key.getD ""))
  if normalized_key = "" then none
  else
    (db.tenant_roles.find? (fun r => r.tenant_id == tenant_id && r.role_key == normalized_key)).map
      (fun r => r.id)

/-- Role text stored on a newly created membership:
`str(invitation.role or "user").strip().lower() or "user"`. -/
def pyRoleText (r : Option String) : String :=
  let chosen := match r with
    | none => "user"
    | some s => if s = "" then "user" else s
  let t := pyLower (pyStrip chosen)
  if t = "" then "user" else t

/-- Role text stored on an updated membership:
`str(invitation.role or membership.role or "user").strip().lower() or "user"`. -/
def pyRoleTextUpd (r : Option String) (prev : String) : String :=
  let chosen := match r with
    | none => if prev = "" then "user" else prev
    | some s => if s = "" then (if prev = "" then "user" else prev) else s
  let t := pyLower (pyStrip chosen)
  if t = "" then "user" else t

/-- Python truthiness `or` on two optional strings (`None` and `""` falsy). -/
def pyOrOpt (a b : Option String) : Option String :=
  match a with
  | none => b
  | some s => if s = "" then b else some s

/-- An invitation is pending and claimable for normalised email `e` at `now`:
`lower(email) == e AND accepted_at IS NULL AND expires_at > now`. -/
def matchesInvitation (e : String) (now : Nat) (inv : Invitation) : Bool :=
  pyLower inv.email == e && inv.accepted_at.isNone && now < inv.expires_at

/-- Stable ascending insertion by `created_at` (models `ORDER BY created_at ASC`). -/
def insertByCreatedAt (inv : Invitation) : List Invitation → List Invitation
  | [] => [inv]
  | a :: l =>
    if a.created_at ≤ inv.created_at then a :: insertByCreatedAt inv l
    else inv :: a :: l

def sortByCreatedAt : List Invitation → List Invitation
  | [] => []
  | a :: l => insertByCreatedAt a (sortByCreatedAt l)

/-- Update the first element satisfying `p` (the row Python's `.first()`
returned and then mutated). -/
def updateFirst (p : α → Bool) (f : α → α) : List α → List α
  | [] => []
  | a :: l => if p a then f a :: l else a :: updateFirst p f l

/-- Loop body of `claim_pending_invitations_for_user` for one invitation:
resolve the structured role id, then insert or update the membership row. -/
def applyInvitation (db : DB) (user : UserProfile) (now : Nat)
    (st : List UserTenant × Finset String) (inv : Invitation) :
    List UserTenant × Finset String :=
  let tenant_role_id := get_tenant_role_id_by_key db inv.tenant_id inv.role
  let pred := fun m : UserTenant =>
    m.supabase_uid == user.supabase_uid && m.tenant_id == inv.tenant_id
  let memberships :=
    match st.1.find? pred with
    | none =>
      st.1 ++ [{ supabase_uid := user.supabase_uid
                 tenant_id := inv.tenant_id
                 tenant_role_id := tenant_role_id
                 role := pyRoleText inv.role
                 invited_by := inv.invited_by
                 invited_at := some inv.created_at
                 accepted_at := some now }]
    | some _ =>
      updateFirst pred
        (fun m =>
          { m with
            tenant_role_id := tenant_role_id
            role := pyRoleTextUpd inv.role m.role
            invited_by := pyOrOpt m.invited_by inv.invited_by
            invited_at := match m.invited_at with
              | some x => some x
              | none => some inv.created_at
            accepted_at := match m.accepted_at with
              | some x => some x
              | none => some now })
        st.1
  (memberships, insert inv.tenant_id st.2)

/-- The user's normalised email: `str(getattr(user, "email", "") or "").strip().lower()`. -/
def normalized_email_of (u : UserProfile) : String :=
  pyLower (pyStrip (u.email.getD ""))

/-- Embedding of `claim_pending_invitations_for_user`: returns the changed
tenant ids together with the written database and user rows. -/
def claim_pending_invitations_for_user (db : DB) (user : UserProfile) (now : Nat) :
    Finset String × DB × UserProfile :=
  if normalized_email_of user = "" then (∅, db, user)
  else
    let invitations :=
      sortByCreatedAt (db.invitations.filter (matchesInvitation (normalized_email_of user) now))
    if invitations = [] then (∅, db, user)
    else
      let final := invitations.foldl (applyInvitation db user now) (db.memberships, ∅)
      let invitations1 := db.invitations.map fun i =>
        if matchesInvitation (normalized_email_of user) now i then
          { i with accepted_at := some now }
        else i
      let user1 :=
        if final.2 ≠ ∅ ∧ user.is_active = false then { user with is_active := true } else user
      (final.2, { db with memberships := final.1, invitations := invitations1 }, user1)

/-! ## Allocation-level model of the permission cache (lines 108-122)

`get_effective_membership_permissions` hands sets to callers while also
storing sets in the module-level cache; whether those are the *same* Python
object matters because callers may mutate what they receive.  This model
makes object identity explicit: a heap of set objects addressed by index,
`set(...)` as allocation of a fresh object, and the cache storing addresses. -/

structure PermAllocState where
  cache : List ((String × String) × Nat × Nat)
  heap : List (Finset String)
deriving DecidableEq

/-- Allocate a fresh set object holding value `v`. -/
def allocSet (st : PermAllocState) (v : Finset String) : Nat × PermAllocState :=
  (st.heap.length, { st with heap := st.heap ++ [v] })

/-- Read the set object at address `a`. -/
def heapGet (st : PermAllocState) (a : Nat) : Finset String :=
  st.heap.getD a ∅

/-- Mutate the set object at address `a` in place (what a caller's
`returned_set.add(...)` amounts to). -/
def heapSet (st : PermAllocState) (a : Nat) (v : Finset String) : PermAllocState :=
  { st with heap := st.heap.set a v }

/-- Dict assignment on the address-valued cache. -/
def cacheSetA (c : List ((String × String) × Nat × Nat)) (k : String × String)
    (v : Nat × Nat) : List ((String × String) × Nat × Nat) :=
  if (List.find? (fun e => e.1 == k) c).isSome then
    List.map (fun e => if e.1 == k then (k, v) else e) c
  else c ++ [(k, v)]

/-- Cache-miss path of `get_effective_membership_permissions`:
`permissions = _load_permissions_from_role_mapping(...)` builds a fresh set
object; the cache stores `set(permissions)` — another fresh copy — and the
original is returned. -/
def permAllocMiss (db : DB) (m : UserTenant) (now : Nat) (st : PermAllocState)
    (key : String × String) : Nat × PermAllocState :=
  let pm := allocSet st (load_permissions_from_role_mapping db m)
  let cp := allocSet pm.2 (heapGet pm.2 pm.1)
  (pm.1, { cp.2 with cache := cacheSetA cp.2.cache key (now + RBAC_PERMISSION_CACHE_TTL_SECONDS, cp.1) })

/-- Embedding of `get_effective_membership_permissions` at the level of
object identity: a live cache hit returns `set(cached[1])` — a fresh copy of
the stored object — and a miss stores a fresh copy of the computed set. -/
def get_effective_membership_permissions_alloc (db : DB) (m : UserTenant) (now : Nat)
    (st : PermAllocState) : Nat × PermAllocState :=
  let key := (m.tenant_id, m.supabase_uid)
  match (List.find? (fun e => e.1 == key) st.cache).map (fun e => e.2) with
  | some cached =>
    if now < cached.1 then allocSet st (heapGet st cached.2)
    else permAllocMiss db m now st key
  | none => permAllocMiss db m now st key

/-- Every address stored in the cache points into the heap. -/
def allocInvariant (st : PermAllocState) : Prop :=
  ∀ e ∈ st.cache, e.2.2 < st.heap.length

/-! ## JWKS fetch (`photocat/auth/jwt.py`, lines 12-47)

State of the module: `_jwks_cache` (the empty dict is falsy, modelled as
`""`), `_jwks_cache_time` (`datetime.min` modelled as time 0), and the
`functools.lru_cache(maxsize=1)` wrapper around `get_jwks`, which memoises
the first successfully returned value of the zero-argument function.
`fetch t` is the key-set document the endpoint serves at time `t` (the
network call is assumed to succeed; seconds as naturals). -/

structure JwksState where
  lru : Option String
  jwks_cache : String
  jwks_cache_time : Nat
deriving DecidableEq

def initialJwksState : JwksState :=
  { lru := none, jwks_cache := "", jwks_cache_time := 0 }

/-- Embedding of `get_jwks` as shipped, `@lru_cache(maxsize=1)` included: a
memoised value is returned without running the body; otherwise the body
consults the hand-rolled staleness window and the result is memoised. -/
def get_jwks (fetch : Nat → String) (now : Nat) (st : JwksState) : String × JwksState :=
  match st.lru with
  | some v => (v, st)
  | none =>
    if st.jwks_cache ≠ "" ∧ now - st.jwks_cache_time < 3600 then
      (st.jwks_cache, { st with lru := some st.jwks_cache })
    else
      let fresh := fetch now
      (fresh, { lru := some fresh, jwks_cache := fresh, jwks_cache_time := now })

/-- The behaviour `get_jwks`'s own docstring promises ("Cache is invalidated
after 1 hour, allowing key rotation without restarting the application"):
the staleness window is honoured on every call. -/
def get_jwks_documented (fetch : Nat → String) (now : Nat) (st : JwksState) :
    String × JwksState :=
  if st.jwks_cache ≠ "" ∧ now - st.jwks_cache_time < 3600 then
    (st.jwks_cache, st)
  else
    let fresh := fetch now
    (fresh, { st with jwks_cache := fresh, jwks_cache_time := now })

/-! ## Theorems for the claims -/

lemma mem_deniedOf_of_deny_row (db : DB) (rid tid P : String)
    (pd : TenantRolePermission) (hpd : pd ∈ db.role_permissions)
    (hpd1 : pd.role_id = rid) (hpd2 : pd.permission_key = P) (hpd3 : pd.effect = "deny")
    (r : TenantRole) (hr : r ∈ db.tenant_roles) (hr1 : r.id = rid)
    (hr2 : r.tenant_id = tid) (hr3 : r.is_active = true) :
    P ∈ deniedOf (roleRows db rid tid) := by
  have hrow : (P, "deny") ∈ roleRows db rid tid := by
    unfold roleRows
    rw [List.mem_flatMap]
    refine ⟨pd, hpd, ?_⟩
    rw [List.mem_filterMap]
    refine ⟨r, hr, ?_⟩
    simp [hr1, hr2, hr3, hpd1, hpd2, hpd3]
  unfold deniedOf
  rw [List.mem_toFinset, List.mem_map]
  exact ⟨(P, "deny"), List.mem_filter.2 ⟨hrow, by simp⟩, rfl⟩

lemma exists_active_role_of_roleRows_ne_nil (db : DB) (rid tid : String)
    (h : roleRows db rid tid ≠ []) :
    ∃ r ∈ db.tenant_roles, r.id = rid ∧ r.tenant_id = tid ∧ r.is_active = true := by
  obtain ⟨x, hx⟩ := List.exists_mem_of_ne_nil _ h
  unfold roleRows at hx
  rw [List.mem_flatMap] at hx
  obtain ⟨p, _, hx2⟩ := hx
  rw [List.mem_filterMap] at hx2
  obtain ⟨r, hr, hcond⟩ := hx2
  by_cases hb : (r.id == p.role_id && r.id == rid && r.tenant_id == tid && r.is_active) = true
  · simp only [Bool.and_eq_true, beq_iff_eq] at hb
    exact ⟨r, hr, hb.1.1.2, hb.1.2, hb.2⟩
  · rw [if_neg hb] at hcond
    cases hcond

/-- C1: deny overrides allow — if the role's rows contain both an allow row
and a deny row for the same permission key `P`, the effective permission set
computed by `_load_permissions_from_role_mapping` does not contain `P`,
regardless of alias expansion; and in general the output of
`_expand_permissions` is disjoint from the denied set. -/
theorem deny_overrides_allow (db : DB) (m : UserTenant) (P rid : String)
    (pa pd : TenantRolePermission) (hrid : m.tenant_role_id = some rid)
    (hpa : pa ∈ db.role_permissions) (hpa1 : pa.role_id = rid)
    (hpa2 : pa.permission_key = P) (hpa3 : pa.effect = "allow")
    (hpd : pd ∈ db.role_permissions) (hpd1 : pd.role_id = rid)
    (hpd2 : pd.permission_key = P) (hpd3 : pd.effect = "deny") :
    P ∉ load_permissions_from_role_mapping db m ∧
      ∀ (impl : List (String × List String)) (al de : Finset String),
        Disjoint (expand_permissions impl al de) de := by
  constructor
  · unfold load_permissions_from_role_mapping
    rw [hrid]
    dsimp only
    by_cases hblank : rid = ""
    · simp [hblank]
    · rw [if_neg hblank]
      by_cases hrows : roleRows db rid m.tenant_id = []
      · simp [hrows]
      · rw [if_neg hrows]
        obtain ⟨r, hr, hr1, hr2, hr3⟩ :=
          exists_active_role_of_roleRows_ne_nil db rid m.tenant_id hrows
        have hden : P ∈ deniedOf (roleRows db rid m.tenant_id) :=
          mem_deniedOf_of_deny_row db rid m.tenant_id P pd hpd hpd1 hpd2 hpd3 r hr hr1 hr2 hr3
        unfold expand_permissions
        intro hmem
        exact (Finset.mem_sdiff.1 hmem).2 hden
  · intro impl al de
    unfold expand_permissions
    exact Finset.sdiff_disjoint

def denyDb : DB :=
  { tenants := []
    tenant_roles := [⟨"r3", "t1", "mixed", true⟩]
    role_permissions := [⟨"r3", "image.view", "allow"⟩, ⟨"r3", "image.view", "deny"⟩]
    memberships := []
    invitations := [] }

def denyMember : UserTenant :=
  ⟨"u1", "t1", some "r3", "mixed", none, none, some 1⟩

/-- Witness for C1 at a concrete catalog: the role `r3` carries both an
allow and a deny row for `image.view`, and the resolver excludes it. -/
theorem deny_overrides_allow_witness :
    "image.view" ∉ load_permissions_from_role_mapping denyDb denyMember ∧
      Disjoint (expand_permissions PERMISSION_IMPLICATIONS {"assets.read"} {"image.view"})
        {"image.view"} :=
  ⟨(deny_overrides_allow denyDb denyMember "image.view" "r3"
      ⟨"r3", "image.view", "allow"⟩ ⟨"r3", "image.view", "deny"⟩
      rfl (by decide) rfl rfl rfl (by decide) rfl rfl rfl).1,
   (deny_overrides_allow denyDb denyMember "image.view" "r3"
      ⟨"r3", "image.view", "allow"⟩ ⟨"r3", "image.view", "deny"⟩
      rfl (by decide) rfl rfl rfl (by decide) rfl rfl rfl).2
     PERMISSION_IMPLICATIONS {"assets.read"} {"image.view"}⟩

def viewerDb : DB :=
  { tenants := []
    tenant_roles := [⟨"r1", "t1", "viewer", true⟩]
    role_permissions := [⟨"r1", "image.view", "allow"⟩]
    memberships := []
    invitations := [] }

def viewerMember : UserTenant :=
  ⟨"u1", "t1", some "r1", "viewer", none, none, some 1⟩

def editorDb : DB :=
  { tenants := []
    tenant_roles := [⟨"r2", "t1", "editor", true⟩]
    role_permissions :=
      [⟨"r2", "assets.read", "allow"⟩, ⟨"r2", "assets.write", "allow"⟩,
       ⟨"r2", "keywords.read", "allow"⟩, ⟨"r2", "keywords.write", "allow"⟩]
    memberships := []
    invitations := [] }

def editorMember : UserTenant :=
  ⟨"u1", "t1", some "r2", "editor", none, none, some 1⟩

/-- C2: the spec's concrete alias-expansion examples — a role allowing only
`image.view` resolves to exactly `{image.view, assets.read}` (so neither
`image.tag`, `image.rate` nor `assets.write`), and the four-row editor role
resolves to exactly the nine listed keys. -/
theorem alias_expansion_examples :
    load_permissions_from_role_mapping viewerDb viewerMember =
        {"image.view", "assets.read"} ∧
      "image.tag" ∉ load_permissions_from_role_mapping viewerDb viewerMember ∧
      "image.rate" ∉ load_permissions_from_role_mapping viewerDb viewerMember ∧
      "assets.write" ∉ load_permissions_from_role_mapping viewerDb viewerMember ∧
      load_permissions_from_role_mapping editorDb editorMember =
        {"assets.read", "assets.write", "keywords.read", "keywords.write", "image.view",
         "image.rate", "image.tag", "image.note.edit", "image.variant.manage"} := by
  decide

/-- A key endpoint that rotates its keys at time 3600: before the rotation
it serves `jwks-old`, afterwards `jwks-new`. -/
def rotatedFetch : Nat → String :=
  fun t => if t < 3600 then "jwks-old" else "jwks-new"

/-- C5 (failing input for the code bug): after a first call at time 0, a
second call at time 7200 — two hours later, well past the one-hour staleness
window — still returns the original key set, because `@lru_cache(maxsize=1)`
memoises the zero-argument `get_jwks` forever and the staleness check in its
body never runs again; the behaviour the docstring and spec describe
(`get_jwks_documented`) would fetch and return the rotated keys. -/
theorem get_jwks_stale_cache_returned :
    (get_jwks rotatedFetch 0 initialJwksState).1 = "jwks-old" ∧
      (get_jwks rotatedFetch 7200 (get_jwks rotatedFetch 0 initialJwksState).2).1 =
        "jwks-old" ∧
      rotatedFetch 7200 = "jwks-new" ∧
      (get_jwks rotatedFetch 0 initialJwksState).2.jwks_cache_time + 3600 ≤ 7200 ∧
      (get_jwks_documented rotatedFetch 7200
          (get_jwks rotatedFetch 0 initialJwksState).2).1 = "jwks-new" := by
  decide

/-- C6: invalidation scoping of `invalidate_tenant_permission_cache` — with
only `tenant_id = T` exactly the entries whose key has tenant component `T`
are removed, across all subjects; with neither filter everything is removed;
with both filters exactly the entries matching both components are removed;
and with only `supabase_uid` exactly that subject's entries are removed. -/
theorem invalidate_cache_scoping (c : Cache) (T : String) :
    (∀ e, e ∈ invalidate_tenant_permission_cache none (some T) c ↔
        e ∈ c ∧ e.1.1 ≠ T) ∧
      invalidate_tenant_permission_cache none none c = [] ∧
      (∀ U e, e ∈ invalidate_tenant_permission_cache (some U) (some T) c ↔
        e ∈ c ∧ ¬(e.1.1 = T ∧ e.1.2 = U)) ∧
      (∀ U e, e ∈ invalidate_tenant_permission_cache (some U) none c ↔
        e ∈ c ∧ e.1.2 ≠ U) := by
  refine ⟨?_, rfl, ?_, ?_⟩
  · intro e
    simp [invalidate_tenant_permission_cache, removeMatch, List.mem_filter]
  · intro U e
    simp only [invalidate_tenant_permission_cache, removeMatch, List.mem_filter,
      Bool.not_eq_true', Bool.and_eq_false_iff, beq_eq_false_iff_ne, ne_eq]
    constructor
    · rintro ⟨h1, h2⟩
      refine ⟨h1, ?_⟩
      rintro ⟨ht, hu⟩
      rcases h2 with h2 | h2
      · exact h2 hu
      · exact h2 ht
    · rintro ⟨h1, h2⟩
      refine ⟨h1, ?_⟩
      by_cases hu : e.1.2 = U
      · by_cases ht : e.1.1 = T
        · exact absurd ⟨ht, hu⟩ h2
        · exact Or.inr ht
      · exact Or.inl hu
  · intro U e
    simp [invalidate_tenant_permission_cache, removeMatch, List.mem_filter]

lemma find_membership_none_of_pending (db : DB) (user : UserProfile) (scope : String)
    (hpend : ∀ m ∈ db.memberships, m.supabase_uid = user.supabase_uid →
      m.tenant_id = scope → m.accepted_at = none) :
    db.memberships.find? (membershipPred user scope) = none := by
  rw [List.find?_eq_none]
  intro m hm hcon
  unfold membershipPred tenant_column_matches at hcon
  simp only [Bool.and_eq_true, beq_iff_eq] at hcon
  obtain ⟨⟨h1, h2⟩, h3⟩ := hcon
  rw [hpend m hm h1 h2] at h3
  cases h3

/-- C3: pending membership exclusion — for an active, non-super-admin user
whose membership rows for the (resolved) tenant scope all have
`accepted_at IS NULL`, both the require-tenant-membership guard and the
require-permission guard fail with a 403 error, whatever permission rows the
linked role carries. -/
theorem pending_membership_excluded (db : DB) (user : UserProfile) (T : String)
    (hsa : user.is_super_admin = false)
    (hpend : ∀ m ∈ db.memberships, m.supabase_uid = user.supabase_uid →
      m.tenant_id = pyOrStr (resolve_tenant_scope db T) T → m.accepted_at = none) :
    require_tenant_access_check db user T = .err 403 ("No access to tenant " ++ T) ∧
      ∀ (pk : String) (now : Nat) (cache : Cache),
        (require_tenant_permission_check pk db user T now cache).1 =
          .err 403 ("No access to tenant " ++ T) := by
  have hnone := find_membership_none_of_pending db user
    (pyOrStr (resolve_tenant_scope db T) T) hpend
  constructor
  · simp [require_tenant_access_check, hsa, hnone]
  · intro pk now cache
    simp [require_tenant_permission_check, hsa, hnone]

def pendingDb : DB :=
  { tenants := [⟨"t1", "alpha", "pfx"⟩]
    tenant_roles := [⟨"r1", "t1", "admin", true⟩]
    role_permissions := [⟨"r1", "image.view", "allow"⟩]
    memberships := [⟨"u1", "t1", some "r1", "admin", none, none, none⟩]
    invitations := [] }

def pendingUser : UserProfile :=
  ⟨"u1", some "u1@example.com", true, false⟩

/-- Witness for C3: a concrete pending membership whose role allows
`image.view`, and both guards yield 403. -/
theorem pending_membership_excluded_witness :
    require_tenant_access_check pendingDb pendingUser "t1" =
        .err 403 ("No access to tenant " ++ "t1") ∧
      (require_tenant_permission_check "image.view" pendingDb pendingUser "t1" 0 []).1 =
        .err 403 ("No access to tenant " ++ "t1") :=
  ⟨(pending_membership_excluded pendingDb pendingUser "t1" rfl (by decide)).1,
   (pending_membership_excluded pendingDb pendingUser "t1" rfl (by decide)).2
     "image.view" 0 []⟩

def ghostDb : DB :=
  { tenants := [⟨"t1", "alpha", "pfx"⟩]
    tenant_roles := []
    role_permissions := []
    memberships := []
    invitations := [] }

def ghostUser : UserProfile :=
  ⟨"u2", some "g@example.com", true, false⟩

/-- C8 (counterexample): the reference `"ghost"` matches no tenant under any
of the three forms, yet the guards raise 403 ("No access to tenant ghost"),
not the 404-class not-found error the claim requires. -/
theorem unresolved_tenant_counterexample :
    resolve_tenant_scope ghostDb "ghost" = none ∧
      require_tenant_access_check ghostDb ghostUser "ghost" =
        .err 403 ("No access to tenant " ++ "ghost") ∧
      (require_tenant_permission_check "image.view" ghostDb ghostUser "ghost" 0 []).1 =
        .err 403 ("No access to tenant " ++ "ghost") ∧
      (403 : Nat) ≠ 404 := by
  decide

/-- C8 (amended): when the tenant reference resolves under none of the three
forms, the guards fall back to the raw reference; for a non-super-admin with
no membership row carrying that raw reference they fail with a 403
authorization error ("No access to tenant ..."), not a 404. -/
theorem unresolved_tenant_forbidden (db : DB) (user : UserProfile) (ref : String)
    (hsa : user.is_super_admin = false)
    (hres : resolve_tenant_scope db ref = none)
    (hmem : ∀ m ∈ db.memberships, m.supabase_uid = user.supabase_uid →
      m.tenant_id ≠ ref) :
    require_tenant_access_check db user ref = .err 403 ("No access to tenant " ++ ref) ∧
      ∀ (pk : String) (now : Nat) (cache : Cache),
        (require_tenant_permission_check pk db user ref now cache).1 =
          .err 403 ("No access to tenant " ++ ref) := by
  have hscope : pyOrStr (resolve_tenant_scope db ref) ref = ref := by
    rw [hres]; rfl
  have hnone : db.memberships.find? (membershipPred user ref) = none := by
    rw [List.find?_eq_none]
    intro m hm hcon
    unfold membershipPred tenant_column_matches at hcon
    simp only [Bool.and_eq_true, beq_iff_eq] at hcon
    exact hmem m hm hcon.1.1 hcon.1.2
  constructor
  · simp [require_tenant_access_check, hsa, hscope, hnone]
  · intro pk now cache
    simp [require_tenant_permission_check, hsa, hscope, hnone]

/-- Witness for the amended C8 at the concrete unresolved reference. -/
theorem unresolved_tenant_forbidden_witness :
    require_tenant_access_check ghostDb ghostUser "ghost" =
        .err 403 ("No access to tenant " ++ "ghost") ∧
      (require_tenant_permission_check "assets.write" ghostDb ghostUser "ghost" 5 []).1 =
        .err 403 ("No access to tenant " ++ "ghost") :=
  ⟨(unresolved_tenant_forbidden ghostDb ghostUser "ghost" rfl (by decide) (by decide)).1,
   (unresolved_tenant_forbidden ghostDb ghostUser "ghost" rfl (by decide) (by decide)).2
     "assets.write" 5 []⟩

lemma mem_cacheSetA (c : List ((String × String) × Nat × Nat)) (k : String × String)
    (v : Nat × Nat) (e : (String × String) × Nat × Nat) (he : e ∈ cacheSetA c k v) :
    e = (k, v) ∨ e ∈ c := by
  unfold cacheSetA at he
  by_cases hf : (List.find? (fun x => x.1 == k) c).isSome
  · rw [if_pos hf] at he
    rw [List.mem_map] at he
    obtain ⟨x, hx, hfx⟩ := he
    by_cases hk : x.1 == k
    · rw [if_pos hk] at hfx
      exact Or.inl hfx.symm
    · rw [if_neg hk] at hfx
      exact Or.inr (hfx ▸ hx)
  · rw [if_neg hf] at he
    rcases List.mem_append.1 he with h | h
    · exact Or.inr h
    · exact Or.inl (List.mem_singleton.1 h)

lemma heapGet_heapSet_ne (st : PermAllocState) (a b : Nat) (v : Finset String)
    (hab : a ≠ b) : heapGet (heapSet st a v) b = heapGet st b := by
  unfold heapGet heapSet
  simp [List.getD, List.getElem?_set_ne hab]

/-- C9: cache value insulation — `get_effective_membership_permissions`
never hands out a set object aliased with a stored cache entry: assuming
every cached address points into the heap, after a call every cached address
differs from the returned address, the pointing invariant still holds, and
mutating the returned object in place leaves the object behind every cache
entry unchanged. -/
theorem cache_value_insulation (db : DB) (m : UserTenant) (now : Nat)
    (st : PermAllocState) (h : allocInvariant st) :
    allocInvariant (get_effective_membership_permissions_alloc db m now st).2 ∧
      (∀ e ∈ (get_effective_membership_permissions_alloc db m now st).2.cache,
        e.2.2 ≠ (get_effective_membership_permissions_alloc db m now st).1) ∧
      ∀ (v : Finset String),
        ∀ e ∈ (get_effective_membership_permissions_alloc db m now st).2.cache,
          heapGet (heapSet (get_effective_membership_permissions_alloc db m now st).2
              (get_effective_membership_permissions_alloc db m now st).1 v) e.2.2 =
            heapGet (get_effective_membership_permissions_alloc db m now st).2 e.2.2 := by
  have hmiss : ∀ key,
      allocInvariant (permAllocMiss db m now st key).2 ∧
        (∀ e ∈ (permAllocMiss db m now st key).2.cache,
          e.2.2 ≠ (permAllocMiss db m now st key).1) ∧
        (∀ e ∈ (permAllocMiss db m now st key).2.cache,
          e.2.2 < st.heap.length + 2 ∧ e.2.2 ≠ st.heap.length) := by
    intro key
    have hresolve : (permAllocMiss db m now st key).1 = st.heap.length := rfl
    have hcache : (permAllocMiss db m now st key).2.cache =
        cacheSetA st.cache key
          (now + RBAC_PERMISSION_CACHE_TTL_SECONDS, st.heap.length + 1) := by
      simp [permAllocMiss, allocSet, cacheSetA]
    have hlen : (permAllocMiss db m now st key).2.heap.length = st.heap.length + 2 := by
      simp [permAllocMiss, allocSet]
    have hbound : ∀ e ∈ (permAllocMiss db m now st key).2.cache,
        e.2.2 < st.heap.length + 2 ∧ e.2.2 ≠ st.heap.length := by
      intro e he
      rw [hcache] at he
      rcases mem_cacheSetA _ _ _ _ he with hk | hold
      · have he2 : e.2.2 = st.heap.length + 1 := by rw [hk]
        omega
      · have he2 : e.2.2 < st.heap.length := h e hold
        omega
    refine ⟨?_, ?_, hbound⟩
    · intro e he
      rw [hlen]
      exact (hbound e he).1
    · intro e he
      rw [hresolve]
      exact (hbound e he).2
  unfold get_effective_membership_permissions_alloc
  cases hfind : (List.find? (fun e => e.1 == (m.tenant_id, m.supabase_uid)) st.cache).map
      (fun e => e.2) with
  | none =>
    simp only [hfind]
    obtain ⟨h1, h2, h3⟩ := hmiss (m.tenant_id, m.supabase_uid)
    refine ⟨h1, h2, ?_⟩
    intro v e he
    have hres2 : (permAllocMiss db m now st (m.tenant_id, m.supabase_uid)).1 =
        st.heap.length := rfl
    refine heapGet_heapSet_ne _ _ _ _ ?_
    have hne := (h3 e he).2
    omega
  | some cached =>
    simp only [hfind]
    by_cases hlive : now < cached.1
    · rw [if_pos hlive]
      have hres : (allocSet st (heapGet st cached.2)).1 = st.heap.length := rfl
      have hst : (allocSet st (heapGet st cached.2)).2.cache = st.cache := rfl
      have hlen : (allocSet st (heapGet st cached.2)).2.heap.length =
          st.heap.length + 1 := by
        simp [allocSet]
      refine ⟨?_, ?_, ?_⟩
      · intro e he
        have hlt := h e (hst ▸ he)
        omega
      · intro e he
        have hlt := h e (hst ▸ he)
        omega
      · intro v e he
        have hlt := h e (hst ▸ he)
        refine heapGet_heapSet_ne _ _ _ _ ?_
        omega
    · rw [if_neg hlive]
      obtain ⟨h1, h2, h3⟩ := hmiss (m.tenant_id, m.supabase_uid)
      refine ⟨h1, h2, ?_⟩
      intro v e he
      have hres2 : (permAllocMiss db m now st (m.tenant_id, m.supabase_uid)).1 =
          st.heap.length := rfl
      refine heapGet_heapSet_ne _ _ _ _ ?_
      have hne := (h3 e he).2
      omega

def emptyAllocState : PermAllocState :=
  { cache := [], heap := [] }

/-- Witness for C9: starting from the empty module state, a call's returned
address is not aliased with the stored entry. -/
theorem cache_value_insulation_witness :
    allocInvariant
        (get_effective_membership_permissions_alloc viewerDb viewerMember 0
          emptyAllocState).2 ∧
      (∀ e ∈ (get_effective_membership_permissions_alloc viewerDb viewerMember 0
          emptyAllocState).2.cache,
        e.2.2 ≠ (get_effective_membership_permissions_alloc viewerDb viewerMember 0
          emptyAllocState).1) ∧
      ∀ (v : Finset String),
        ∀ e ∈ (get_effective_membership_permissions_alloc viewerDb viewerMember 0
            emptyAllocState).2.cache,
          heapGet
              (heapSet
                (get_effective_membership_permissions_alloc viewerDb viewerMember 0
                  emptyAllocState).2
                (get_effective_membership_permissions_alloc viewerDb viewerMember 0
                  emptyAllocState).1 v) e.2.2 =
            heapGet (get_effective_membership_permissions_alloc viewerDb viewerMember 0
              emptyAllocState).2 e.2.2 :=
  cache_value_insulation viewerDb viewerMember 0 emptyAllocState
    (fun e he => absurd he (List.not_mem_nil e))

lemma pyLower_eq_empty_iff (s : String) : pyLower s = "" ↔ s = "" := by
  simp [pyLower, String.ext_iff, List.map_eq_nil_iff]

/-- Specification-side reading of the role text stored on a newly created
membership: the invitation's role stripped and lowercased, with `"user"`
when the invitation role is missing, empty, or whitespace-only. -/
def roleTextSpec (r : Option String) : String :=
  match r with
  | none => "user"
  | some s => if pyStrip s = "" then "user" else pyLower (pyStrip s)

/-- Specification-side fallback to the membership's previous role: the
previous role stripped and lowercased, `"user"` when that is blank. -/
def roleTextFallback (prev : String) : String :=
  if prev = "" then "user"
  else if pyStrip prev = "" then "user" else pyLower (pyStrip prev)

/-- Specification-side reading of the role text stored on an updated
membership: a missing or *empty* invitation role falls back to the previous
role; a whitespace-only (nonempty) invitation role yields `"user"` directly,
skipping the previous role. -/
def roleTextUpdSpec (r : Option String) (prev : String) : String :=
  match r with
  | none => roleTextFallback prev
  | some s =>
    if s = "" then roleTextFallback prev
    else if pyStrip s = "" then "user" else pyLower (pyStrip s)

/-- C10 (counterexample): invitation role `" "` (whitespace-only) against an
existing membership with previous role `"admin"` — the claimer stores
`"user"`, not the previous role `"admin"` the claim's fallback order
prescribes. -/
theorem role_text_whitespace_counterexample :
    ((claim_pending_invitations_for_user
          { tenants := []
            tenant_roles := []
            role_permissions := []
            memberships := [⟨"u3", "t1", some "rX", "admin", none, none, some 3⟩]
            invitations := [{ email := "c@x.com", tenant_id := "t1", role := some " "
                              invited_by := none, created_at := 1, expires_at := 100
                              accepted_at := none }] }
          ⟨"u3", some "c@x.com", true, false⟩ 10).2.1.memberships.map
        (fun m => m.role)) = ["user"] ∧
      ("user" : String) ≠ "admin" := by
  decide

/-- C10 (amended): the stored role text is the invitation's role stripped
and lowercased when that is nonblank; a missing or empty invitation role
falls back — for an existing membership — to the previous role (stripped,
lowercased, `"user"` when blank) and to `"user"` for a new membership; a
whitespace-only invitation role yields `"user"` directly; and structured
role lookup matches on the stripped, lowercased key, returning no role for a
blank key. -/
theorem role_text_normalization :
    (∀ r, pyRoleText r = roleTextSpec r) ∧
      (∀ r prev, pyRoleTextUpd r prev = roleTextUpdSpec r prev) ∧
      (∀ (db : DB) (tid : String), get_tenant_role_id_by_key db tid none = none) ∧
      (∀ (db : DB) (tid s : String), pyLower (pyStrip s) = "" →
        get_tenant_role_id_by_key db tid (some s) = none) ∧
      (∀ (db : DB) (tid s : String), pyLower (pyStrip s) ≠ "" →
        get_tenant_role_id_by_key db tid (some s) =
          (db.tenant_roles.find?
              (fun row => row.tenant_id == tid && row.role_key == pyLower (pyStrip s))).map
            (fun row => row.id)) := by
  have hnonblank : ∀ s : String, pyStrip s ≠ "" →
      (if pyLower (pyStrip s) = "" then "user" else pyLower (pyStrip s)) =
        pyLower (pyStrip s) := by
    intro s hs
    rw [if_neg (fun hc => hs ((pyLower_eq_empty_iff (pyStrip s)).1 hc))]
  refine ⟨?_, ?_, ?_, ?_, ?_⟩
  · intro r
    cases r with
    | none => decide
    | some s =>
      unfold pyRoleText roleTextSpec
      dsimp only
      by_cases hs : s = ""
      · subst hs; decide
      · rw [if_neg hs]
        by_cases hstrip : pyStrip s = ""
        · rw [hstrip, if_pos rfl]
          show (if pyLower "" = "" then "user" else pyLower "") = "user"
          decide
        · rw [if_neg hstrip, hnonblank s hstrip]
  · intro r prev
    have hprevCase :
        (if pyLower (pyStrip (if prev = "" then "user" else prev)) = "" then "user"
          else pyLower (pyStrip (if prev = "" then "user" else prev))) =
          roleTextFallback prev := by
      unfold roleTextFallback
      by_cases hp : prev = ""
      · subst hp; decide
      · rw [if_neg hp, if_neg hp]
        by_cases hps : pyStrip prev = ""
        · rw [hps, if_pos rfl]
          show (if pyLower "" = "" then "user" else pyLower "") = "user"
          decide
        · rw [if_neg hps, hnonblank prev hps]
    cases r with
    | none =>
      unfold pyRoleTextUpd roleTextUpdSpec
      dsimp only
      exact hprevCase
    | some s =>
      unfold pyRoleTextUpd roleTextUpdSpec
      dsimp only
      by_cases hs : s = ""
      · rw [if_pos hs, if_pos hs]
        exact hprevCase
      · rw [if_neg hs, if_neg hs]
        by_cases hstrip : pyStrip s = ""
        · rw [hstrip, if_pos rfl]
          show (if pyLower "" = "" then "user" else pyLower "") = "user"
          decide
        · rw [if_neg hstrip, hnonblank s hstrip]
  · intro db tid
    rfl
  · intro db tid s hs
    unfold get_tenant_role_id_by_key
    dsimp only [Option.getD]
    rw [hs]
    rfl
  · intro db tid s hs
    unfold get_tenant_role_id_by_key
    dsimp only [Option.getD]
    rw [if_neg hs]

def lookupDb : DB :=
  { tenants := []
    tenant_roles := [⟨"r7", "t1", "admin", true⟩]
    role_permissions := []
    memberships := []
    invitations := [] }

/-- Witness for the amended C10 at concrete role texts and a concrete
lookup. -/
theorem role_text_normalization_witness :
    pyRoleText (some " Admin ") = roleTextSpec (some " Admin ") ∧
      pyRoleTextUpd (some "") "Editor " = roleTextUpdSpec (some "") "Editor " ∧
      get_tenant_role_id_by_key lookupDb "t1" none = none ∧
      get_tenant_role_id_by_key lookupDb "t1" (some " ") = none ∧
      get_tenant_role_id_by_key lookupDb "t1" (some " Admin ") =
        (lookupDb.tenant_roles.find?
            (fun row => row.tenant_id == "t1" &&
              row.role_key == pyLower (pyStrip " Admin "))).map
          (fun row => row.id) :=
  ⟨role_text_normalization.1 (some " Admin "),
   role_text_normalization.2.1 (some "") "Editor ",
   role_text_normalization.2.2.1 lookupDb "t1",
   role_text_normalization.2.2.2.1 lookupDb "t1" " " (by decide),
   role_text_normalization.2.2.2.2 lookupDb "t1" " Admin " (by decide)⟩

lemma claim_no_match (db : DB) (u : UserProfile) (t : Nat)
    (hf : db.invitations.filter (matchesInvitation (normalized_email_of u) t) = []) :
    claim_pending_invitations_for_user db u t = (∅, db, u) := by
  unfold claim_pending_invitations_for_user
  by_cases hb : normalized_email_of u = ""
  · rw [if_pos hb]
  · rw [if_neg hb, hf]
    rfl

lemma claim_single_match (db : DB) (user : UserProfile) (inv : Invitation) (now : Nat)
    (hne : normalized_email_of user ≠ "")
    (hmatch : db.invitations.filter (matchesInvitation (normalized_email_of user) now) =
      [inv]) :
    claim_pending_invitations_for_user db user now =
      (insert inv.tenant_id ∅,
       { db with
          memberships := (applyInvitation db user now (db.memberships, ∅) inv).1
          invitations := db.invitations.map fun i =>
            if matchesInvitation (normalized_email_of user) now i then
              { i with accepted_at := some now }
            else i },
       if insert inv.tenant_id (∅ : Finset String) ≠ ∅ ∧ user.is_active = false then
         { user with is_active := true }
       else user) := by
  unfold claim_pending_invitations_for_user
  rw [if_neg hne, hmatch]
  show (if ([inv] : List Invitation) = [] then _ else _) = _
  rw [if_neg (List.cons_ne_nil inv [])]
  rfl

lemma updateFirst_filter_length (p : α → Bool) (f : α → α)
    (hpf : ∀ x, p (f x) = p x) :
    ∀ l : List α, ((updateFirst p f l).filter p).length = (l.filter p).length := by
  intro l
  induction l with
  | nil => rfl
  | cons a l ih =>
    unfold updateFirst
    by_cases ha : p a
    · rw [if_pos ha]
      rw [List.filter_cons, List.filter_cons, hpf a]
      by_cases hfa : p a <;> simp [hfa] at ha ⊢
    · rw [if_neg ha]
      rw [List.filter_cons, List.filter_cons]
      simp only [ha, Bool.false_eq_true, if_neg, ite_false, cond_false]
      simpa using ih

lemma applyInvitation_membership_count (db : DB) (user : UserProfile) (now : Nat)
    (inv : Invitation)
    (hcount : (db.memberships.filter (fun m =>
        m.supabase_uid == user.supabase_uid && m.tenant_id == inv.tenant_id)).length ≤ 1) :
    ((applyInvitation db user now (db.memberships, ∅) inv).1.filter (fun m =>
        m.supabase_uid == user.supabase_uid && m.tenant_id == inv.tenant_id)).length = 1 := by
  unfold applyInvitation
  dsimp only
  cases hfind : db.memberships.find? (fun m =>
      m.supabase_uid == user.supabase_uid && m.tenant_id == inv.tenant_id) with
  | none =>
    have hnil : db.memberships.filter (fun m =>
        m.supabase_uid == user.supabase_uid && m.tenant_id == inv.tenant_id) = [] := by
      rw [List.filter_eq_nil_iff]
      intro m hm
      rw [List.find?_eq_none] at hfind
      exact fun hc => hfind m hm hc
    rw [List.filter_append, hnil]
    simp
  | some m =>
    have hlen := updateFirst_filter_length
      (fun m => m.supabase_uid == user.supabase_uid && m.tenant_id == inv.tenant_id)
      (fun m =>
        { m with
          tenant_role_id := get_tenant_role_id_by_key db inv.tenant_id inv.role
          role := pyRoleTextUpd inv.role m.role
          invited_by := pyOrOpt m.invited_by inv.invited_by
          invited_at := match m.invited_at with
            | some x => some x
            | none => some inv.created_at
          accepted_at := match m.accepted_at with
            | some x => some x
            | none => some now })
      (fun x => rfl) db.memberships
    rw [hlen]
    have hpm := List.find?_some hfind
    have hmem : m ∈ db.memberships.filter (fun x =>
        x.supabase_uid == user.supabase_uid && x.tenant_id == inv.tenant_id) :=
      List.mem_filter.2 ⟨List.mem_of_find?_eq_some hfind, hpm⟩
    have hpos : 0 < (db.memberships.filter (fun x =>
        x.supabase_uid == user.supabase_uid && x.tenant_id == inv.tenant_id)).length :=
      List.length_pos.2 (List.ne_nil_of_mem hmem)
    omega

lemma matchesInvitation_marked_false (e : String) (now now2 : Nat) (i : Invitation) :
    matchesInvitation e now2 { i with accepted_at := some now } = false := by
  unfold matchesInvitation
  simp

lemma matchesInvitation_monotone (e : String) (now now2 : Nat) (i : Invitation)
    (h12 : now ≤ now2) (h : matchesInvitation e now2 i = true) :
    matchesInvitation e now i = true := by
  unfold matchesInvitation at h ⊢
  simp only [Bool.and_eq_true, decide_eq_true_eq] at h ⊢
  exact ⟨h.1, by omega⟩

/-- C4: idempotence of invitation claiming — with exactly one matching
pending unexpired invitation and at most one existing membership row for
that (user, tenant), the first call reports exactly the invitation's tenant
id and leaves exactly one membership row, a second (later) call on the
written state reports the empty set and writes nothing; and in general a
call that matches no invitation returns the empty set and performs no
writes. -/
theorem claim_idempotent (db : DB) (user : UserProfile) (inv : Invitation)
    (now now2 : Nat)
    (hne : normalized_email_of user ≠ "")
    (hmatch : db.invitations.filter (matchesInvitation (normalized_email_of user) now) =
      [inv])
    (hcount : (db.memberships.filter (fun m =>
        m.supabase_uid == user.supabase_uid && m.tenant_id == inv.tenant_id)).length ≤ 1)
    (hnow : now ≤ now2) :
    (claim_pending_invitations_for_user db user now).1 = {inv.tenant_id} ∧
      ((claim_pending_invitations_for_user db user now).2.1.memberships.filter (fun m =>
          m.supabase_uid == user.supabase_uid && m.tenant_id == inv.tenant_id)).length = 1 ∧
      claim_pending_invitations_for_user
          (claim_pending_invitations_for_user db user now).2.1
          (claim_pending_invitations_for_user db user now).2.2 now2 =
        (∅, (claim_pending_invitations_for_user db user now).2.1,
          (claim_pending_invitations_for_user db user now).2.2) ∧
      ∀ (db' : DB) (u' : UserProfile) (t : Nat),
        db'.invitations.filter (matchesInvitation (normalized_email_of u') t) = [] →
        claim_pending_invitations_for_user db' u' t = (∅, db', u') := by
  have hR1 := claim_single_match db user inv now hne hmatch
  have hemail : normalized_email_of (claim_pending_invitations_for_user db user now).2.2 =
      normalized_email_of user := by
    rw [hR1]
    dsimp only
    split
    · rfl
    · rfl
  refine ⟨?_, ?_, ?_, ?_⟩
  · rw [hR1]
    simp
  · rw [hR1]
    exact applyInvitation_membership_count db user now inv hcount
  · refine claim_no_match _ _ _ ?_
    rw [hemail, hR1]
    dsimp only
    rw [List.filter_eq_nil_iff]
    intro x hx
    rw [List.mem_map] at hx
    obtain ⟨i, hi, hgi⟩ := hx
    by_cases hmi : matchesInvitation (normalized_email_of user) now i
    · rw [if_pos hmi] at hgi
      rw [← hgi]
      simp [matchesInvitation_marked_false]
    · rw [if_neg hmi] at hgi
      rw [← hgi]
      intro hc
      exact hmi (matchesInvitation_monotone _ now now2 i hnow hc)
  · intro db' u' t hf
    exact claim_no_match db' u' t hf

def claimInv : Invitation :=
  { email := "a@x.com", tenant_id := "t1", role := some "admin", invited_by := some "boss"
    created_at := 5, expires_at := 100, accepted_at := none }

def claimDb : DB :=
  { tenants := []
    tenant_roles := [⟨"r9", "t1", "admin", true⟩]
    role_permissions := []
    memberships := []
    invitations := [claimInv] }

def claimUser : UserProfile :=
  ⟨"u1", some "a@x.com", true, false⟩

/-- Witness for C4 at a concrete pending invitation claimed at time 10 and
re-claimed at time 20. -/
theorem claim_idempotent_witness :
    (claim_pending_invitations_for_user claimDb claimUser 10).1 = {claimInv.tenant_id} ∧
      ((claim_pending_invitations_for_user claimDb claimUser 10).2.1.memberships.filter
          (fun m => m.supabase_uid == claimUser.supabase_uid &&
            m.tenant_id == claimInv.tenant_id)).length = 1 ∧
      claim_pending_invitations_for_user
          (claim_pending_invitations_for_user claimDb claimUser 10).2.1
          (claim_pending_invitations_for_user claimDb claimUser 10).2.2 20 =
        (∅, (claim_pending_invitations_for_user claimDb claimUser 10).2.1,
          (claim_pending_invitations_for_user claimDb claimUser 10).2.2) :=
  ⟨(claim_idempotent claimDb claimUser claimInv 10 20 (by decide) (by decide) (by decide)
      (by decide)).1,
   (claim_idempotent claimDb claimUser claimInv 10 20 (by decide) (by decide) (by decide)
      (by decide)).2.1,
   (claim_idempotent claimDb claimUser claimInv 10 20 (by decide) (by decide) (by decide)
      (by decide)).2.2.1⟩

end Photocat
